import Mathlib

/-!
Verification development for the Azure DevOps git downloader
(`api/git/azure.go` of the portainer repository).

The Go code is shallowly embedded: pure string manipulation becomes Lean
functions on `String`/`List Char`; the HTTP client, the temporary-file
provider and the archive extractor are modelled as an explicit environment
(`AzureEnv`) supplying the outcome of each collaborator call; the
downloader's two cache maps become function-valued fields of an explicit
state (`AzureState`) threaded through the operations; every remote request
an operation issues is recorded in an output trace of `RemoteCall`s, and
file-system effects of the download path are recorded as `FsEvent`s.

Go string primitives (`strings.HasPrefix`, `strings.Split`, …) are embedded
as structurally recursive functions over `String.data` so that all
definitions evaluate by kernel reduction.
-/

deriving instance DecidableEq for Except

/-- Embeds Go `strings.Split` for a one-character separator, on char lists:
splits at every occurrence of the separator, keeping empty segments, and
yields `[[]]` for the empty input (as `strings.Split("", sep)` yields `[""]`). -/
def splitOnCharAux : List Char → Char → List (List Char)
  | [], _ => [[]]
  | x :: xs, c =>
    match splitOnCharAux xs c with
    | [] => [[]]
    | h :: t => if x = c then [] :: h :: t else (x :: h) :: t

/-- Embeds Go `strings.Split(s, sep)` for a one-character separator. -/
def goSplit (s : String) (sep : Char) : List String :=
  (splitOnCharAux s.data sep).map (fun l => String.mk l)

/-- Embeds Go `strings.Join(parts, sep)`. -/
def joinWith (sep : String) : List String → String
  | [] => ""
  | [x] => x
  | x :: y :: xs => x ++ sep ++ joinWith sep (y :: xs)

/-- Embeds Go `strings.HasPrefix(s, pre)`. -/
def goHasPrefix (s pre : String) : Bool :=
  decide (pre.data <+: s.data)

/-- Embeds Go `strings.HasSuffix(s, suf)`. -/
def goHasSuffix (s suf : String) : Bool :=
  decide (suf.data <:+ s.data)

/-- Embeds Go `strings.Contains(s, sub)`. -/
def goContains (s sub : String) : Bool :=
  decide (sub.data <:+: s.data)

/-- Embeds Go `strings.TrimPrefix(s, pre)`: drops `pre` when it is a prefix,
returns `s` unchanged otherwise. -/
def goTrimPrefix (s pre : String) : String :=
  if goHasPrefix s pre then String.mk (s.data.drop pre.data.length) else s

/-- Embeds Go `strings.TrimSuffix(s, suf)`. -/
def goTrimSuffix (s suf : String) : String :=
  if goHasSuffix s suf then String.mk (s.data.take (s.data.length - suf.data.length)) else s

/-- The `dev.azure.com` host constant (azure.go line 24). -/
def azureDevOpsHost : String := "dev.azure.com"

/-- The `.visualstudio.com` host-suffix constant (azure.go line 25). -/
def visualStudioHostSuffix : String := ".visualstudio.com"

/-- Embeds `isAzureUrl` (azure.go lines 28-31): substring containment of
either Azure host marker anywhere in the string. -/
def isAzureUrl (s : String) : Bool :=
  goContains s azureDevOpsHost || goContains s visualStudioHostSuffix

/-- The fields of Go's `net/url.URL` that `parseHttpUrl` consumes. -/
structure GoUrl where
  scheme : String
  username : String
  password : String
  host : String
  path : String
deriving DecidableEq, Repr

/-- Splits `scheme://rest` into authority and path and extracts userinfo,
following Go `net/url.Parse` for the http(s) shapes this package passes to
it: the authority extends to the first `/`, userinfo is cut at the last `@`
(host is what follows), and userinfo splits at the first `:` into username
and password (`Username()`/`Password()` return `""` when absent).
Percent-decoding and query/fragment splitting are not modelled; the URLs
this package parses carry neither. -/
def parseAuthority (scheme : String) (rest : String) : GoUrl :=
  let authority := String.mk (rest.data.takeWhile (fun c => c != '/'))
  let path := String.mk (rest.data.dropWhile (fun c => c != '/'))
  let hostParts := goSplit authority '@'
  let host := (hostParts.getLast?).getD ""
  let userinfo := joinWith "@" hostParts.dropLast
  let userParts := goSplit userinfo ':'
  let username := (userParts.head?).getD ""
  let password := if userParts.length ≤ 1 then "" else joinWith ":" userParts.tail
  ⟨scheme, username, password, host, path⟩

/-- Models Go's `net/url.Parse` (standard-library collaborator of
`parseHttpUrl`) for http(s) URLs, via `parseAuthority`. -/
def goUrlParse (raw : String) : Option GoUrl :=
  if goHasPrefix raw "https://" then some (parseAuthority "https" (String.mk (raw.data.drop 8)))
  else if goHasPrefix raw "http://" then some (parseAuthority "http" (String.mk (raw.data.drop 7)))
  else none

/-- Embeds `azureOptions` (azure.go lines 33-38): the parsed repository
locator, including credentials possibly embedded in the URL. -/
structure azureOptions where
  organisation : String
  project : String
  repository : String
  username : String
  password : String
deriving DecidableEq, Repr

/-- Embeds `parseSshUrl` (azure.go lines 213-225): split by `/`, demand
exactly 4 segments, map segments 1..3 to organisation/project/repository. -/
def parseSshUrl (rawUrl : String) : Except String azureOptions :=
  match goSplit rawUrl '/' with
  | [_, p1, p2, p3] => .ok ⟨p1, p2, p3, "", ""⟩
  | _ => .error "want url git@ssh.dev.azure.com:v3/Organisation/Project/Repository"

/-- Embeds `parseHttpUrl` (azure.go lines 230-262): parse the URL, then
dispatch on the host; for `dev.azure.com` the path must split by `/` into
exactly 5 segments (segments 1, 2, 4 are organisation, project,
repository); for a `.visualstudio.com` host the path must split into
exactly 4 segments and the organisation is the host with the suffix
trimmed; userinfo credentials are copied into the locator. -/
def parseHttpUrl (rawUrl : String) : Except String azureOptions :=
  match goUrlParse rawUrl with
  | none => .error "failed to parse HTTP url"
  | some u =>
    if u.host = azureDevOpsHost then
      match goSplit u.path '/' with
      | [_, p1, p2, _, p4] => .ok ⟨p1, p2, p4, u.username, u.password⟩
      | _ => .error "want url https://Organisation@dev.azure.com/Organisation/Project/_git/Repository"
    else if goHasSuffix u.host visualStudioHostSuffix then
      match goSplit u.path '/' with
      | [_, p1, _, p3] => .ok ⟨goTrimSuffix u.host visualStudioHostSuffix, p1, p3, u.username, u.password⟩
      | _ => .error "want url https://organisation.visualstudio.com/project/_git/repository"
    else .error "unknown azure host in url"

/-- Embeds `parseUrl` (azure.go lines 196-209): dispatch on the scheme
prefix; `ssh://` URLs are delegated to the SSH parser with the first 6
characters removed. -/
def parseUrl (rawUrl : String) : Except String azureOptions :=
  if goHasPrefix rawUrl "https://" || goHasPrefix rawUrl "http://" then parseHttpUrl rawUrl
  else if goHasPrefix rawUrl "git@ssh" then parseSshUrl rawUrl
  else if goHasPrefix rawUrl "ssh://" then parseSshUrl (String.mk (rawUrl.data.drop 6))
  else .error "supported url schemes are https and ssh"

/-- The `refs/heads/` branch-reference marker (azure.go line 359). -/
def branchRefMarker : String := "refs/heads/"

/-- The `refs/tags/` tag-reference marker (azure.go line 360). -/
def tagRefMarker : String := "refs/tags/"

/-- Embeds `formatReferenceName` (azure.go lines 363-371): strip the branch
marker if present, else strip the tag marker if present, else return the
name unchanged. -/
def formatReferenceName (name : String) : String :=
  if goHasPrefix name branchRefMarker then goTrimPrefix name branchRefMarker
  else if goHasPrefix name tagRefMarker then goTrimPrefix name tagRefMarker
  else name

/-- Embeds `getVersionType` (azure.go lines 373-381): classify a reference
name as branch, tag or commit by its marker. -/
def getVersionType (name : String) : String :=
  if goHasPrefix name branchRefMarker then "branch"
  else if goHasPrefix name tagRefMarker then "tag"
  else "commit"

/-- Embeds `azureRef` (azure.go lines 41-44): one decoded entry of the
refs-listing response. -/
structure azureRef where
  name : String
  objectID : String
deriving DecidableEq, Repr

/-- Embeds `azureItem` (azure.go lines 47-51): one decoded entry of the
root-item response. -/
structure azureItem where
  objectID : String
  commitId : String
  path : String
deriving DecidableEq, Repr

/-- Modelled from the spec: `cloneOptions` is declared outside the provided
source (in the package's shared git code); per the spec's external
interface, `download`/`listRemote` take `{repositoryUrl, referenceName,
username, password}`. -/
structure cloneOptions where
  repositoryUrl : String
  referenceName : String
  username : String
  password : String
deriving DecidableEq, Repr

/-- Modelled from the spec: `fetchOptions` is declared outside the provided
source; per the spec's external interface, `latestCommitID`/`listTree` take
`{repositoryUrl, referenceName, username, password, extensions[]}`. -/
structure fetchOptions where
  repositoryUrl : String
  referenceName : String
  username : String
  password : String
  extensions : List String
deriving DecidableEq, Repr

/-- The error kinds the operations can return. `incorrectRepositoryURL`,
`authenticationFailure` and `refNotFound` embed the package's sentinel
errors `ErrIncorrectRepositoryURL`, `ErrAuthenticationFailure` and
`ErrRefNotFound` (declared outside the provided source, used at azure.go
lines 413, 415 and 486); `genericStatus ctx status` embeds the
`fmt.Errorf("<ctx> with a status ...", resp.Status)` errors carrying the
status text; the remaining constructors embed parse, transport, JSON
decode, incomplete-data and I/O errors. -/
inductive GitError where
  | parseError (msg : String)
  | incorrectRepositoryURL
  | authenticationFailure
  | refNotFound
  | transportError (msg : String)
  | genericStatus (context status : String)
  | decodeError (msg : String)
  | incompleteData (msg : String)
  | ioError (msg : String)
deriving DecidableEq, Repr

/-- Which REST endpoint a remote request was issued against. -/
inductive EndpointKind where
  | refs
  | rootItem
  | tree
  | download
deriving DecidableEq, Repr

/-- One remote HTTP request issued by an operation: the endpoint it hit and
the basic-auth credentials set on the request (`none` when no
authentication header was set). -/
structure RemoteCall where
  kind : EndpointKind
  auth : Option (String × String)
deriving DecidableEq, Repr

/-- The outcome of one HTTP call: a transport-level failure, or a response
with a numeric status code, a status text, and (for 200 responses) a body
that either decodes to `β` or fails to decode (`none`). -/
inductive HttpOutcome (β : Type) where
  | transportError (msg : String)
  | response (statusCode : Nat) (status : String) (body : Option β)
deriving DecidableEq, Repr

/-- A file-system effect of the download operation: creation or removal of
a temporary archive file. -/
inductive FsEvent where
  | create (name : String)
  | remove (name : String)
deriving DecidableEq, Repr

/-- The environment an operation runs against: what the remote returns for
each endpoint, and the outcomes of the temporary-file creation, the
response-body copy, and the archive extraction. -/
structure AzureEnv where
  refsResponse : HttpOutcome (List azureRef)
  rootItemResponse : HttpOutcome (List azureItem)
  treeResponse : HttpOutcome (List String)
  downloadResponse : HttpOutcome Unit
  tempFileResult : Except String String
  copyResult : Except String Unit
  unzipResult : Except String Unit

/-- Embeds the mutable fields of `azureDownloader` (azure.go lines 53-62):
the cache-enabled flag and the two cache maps (reference lists keyed by
repository URL, tree lists keyed by the (repository URL, reference) cache
key). -/
structure AzureState where
  cacheEnabled : Bool
  repoRefCache : String → Option (List String)
  repoTreeCache : String × String → Option (List String)

/-- Modelled from the spec: `generateCacheKey` is defined outside the
provided source; per the spec, a tree cache entry "is keyed by a composite
of (repository URL, reference name)" and "is valid per (repository URL,
reference) pair", so the key is modelled as that pair. -/
def generateCacheKey (repositoryUrl referenceName : String) : String × String :=
  (repositoryUrl, referenceName)

/-- Modelled from the spec: `matchExtensions` is defined outside the
provided source; per the spec, "matching is case-sensitive suffix matching
against each path" and an empty extension set means no filtering. -/
def matchExtensions (path : String) (extensions : List String) : Bool :=
  extensions.isEmpty || extensions.any (fun ext => goHasSuffix path ext)

/-- Embeds the basic-auth selection repeated at azure.go lines 115-119,
162-166, 395-399 and 506-510: call-scoped credentials if either is
non-empty, else URL-embedded credentials if either is non-empty, else no
authentication header. -/
def chooseBasicAuth (optUsername optPassword cfgUsername cfgPassword : String) :
    Option (String × String) :=
  if optUsername != "" || optPassword != "" then some (optUsername, optPassword)
  else if cfgUsername != "" || cfgPassword != "" then some (cfgUsername, cfgPassword)
  else none

/-- Embeds `listRemote` (azure.go lines 383-442): parse the URL, issue the
refs-listing request, map 404 to `incorrectRepositoryURL`, 401/203 to
`authenticationFailure` and any other non-200 status to a generic status
error; on 200, decode, drop the `HEAD` entry, cache the names under the
repository URL when caching is enabled, and return them. Returns the
result, the updated state, and the trace of remote requests issued. -/
def listRemote (env : AzureEnv) (a : AzureState) (options : cloneOptions) :
    Except GitError (List String) × AzureState × List RemoteCall :=
  match parseUrl options.repositoryUrl with
  | .error msg => (.error (.parseError msg), a, [])
  | .ok config =>
    let call : RemoteCall :=
      ⟨.refs, chooseBasicAuth options.username options.password config.username config.password⟩
    match env.refsResponse with
    | .transportError msg => (.error (.transportError msg), a, [call])
    | .response code status body =>
      if code ≠ 200 then
        if code = 404 then (.error .incorrectRepositoryURL, a, [call])
        else if code = 401 ∨ code = 203 then (.error .authenticationFailure, a, [call])
        else (.error (.genericStatus "failed to list refs url" status), a, [call])
      else
        match body with
        | none => (.error (.decodeError "could not parse Azure refs response"), a, [call])
        | some refs =>
          let ret := (refs.filter (fun r => r.name != "HEAD")).map (fun r => r.name)
          let a' :=
            if a.cacheEnabled then
              { a with repoRefCache :=
                  fun k => if k = options.repositoryUrl then some ret else a.repoRefCache k }
            else a
          (.ok ret, a', [call])

/-- Embeds `getRootItem` (azure.go lines 150-194): parse the URL, issue the
root-item request, map any non-200 status to a generic status error; on
200, decode, and fail with an incomplete-data error when the item list is
empty or the first item's commit id is empty. -/
def getRootItem (env : AzureEnv) (options : fetchOptions) :
    Except GitError azureItem × List RemoteCall :=
  match parseUrl options.repositoryUrl with
  | .error msg => (.error (.parseError msg), [])
  | .ok config =>
    let call : RemoteCall :=
      ⟨.rootItem, chooseBasicAuth options.username options.password config.username config.password⟩
    match env.rootItemResponse with
    | .transportError msg => (.error (.transportError msg), [call])
    | .response code status body =>
      if code ≠ 200 then
        (.error (.genericStatus "failed to get repository root item" status), [call])
      else
        match body with
        | none => (.error (.decodeError "could not parse Azure items response"), [call])
        | some items =>
          match items with
          | [] => (.error (.incompleteData "failed to get latest commitID in the repository"), [call])
          | item :: _ =>
            if item.commitId = "" then
              (.error (.incompleteData "failed to get latest commitID in the repository"), [call])
            else (.ok item, [call])

/-- Embeds `latestCommitID` (azure.go lines 142-148): thin wrapper
returning the root item's commit id. -/
def latestCommitID (env : AzureEnv) (options : fetchOptions) :
    Except GitError String × List RemoteCall :=
  match getRootItem env options with
  | (.error e, calls) => (.error e, calls)
  | (.ok rootItem, calls) => (.ok rootItem.commitId, calls)

/-- Embeds azure.go lines 478-549, the continuation of `listTree` after the
resolved reference list is at hand (state `a1`, requests issued so far
`calls1`): fail with `refNotFound` when the requested reference is absent
from `refs`, resolve the root item, issue the tree request, map any
non-200 status to a generic status error, decode the relative paths, cache
the unfiltered list under the (repository URL, reference) key when caching
is enabled, and return the filtered paths. -/
def listTreeAfterRefs (env : AzureEnv) (options : fetchOptions) (a1 : AzureState)
    (calls1 : List RemoteCall) (refs : List String) :
    Except GitError (List String) × AzureState × List RemoteCall :=
  if options.referenceName ∈ refs then
    match getRootItem env options with
    | (.error e, calls2) => (.error e, a1, calls1 ++ calls2)
    | (.ok _, calls2) =>
      match parseUrl options.repositoryUrl with
      | .error msg => (.error (.parseError msg), a1, calls1 ++ calls2)
      | .ok config =>
        let call : RemoteCall :=
          ⟨.tree, chooseBasicAuth options.username options.password config.username config.password⟩
        match env.treeResponse with
        | .transportError msg => (.error (.transportError msg), a1, calls1 ++ calls2 ++ [call])
        | .response code status body =>
          if code ≠ 200 then
            (.error (.genericStatus "failed to list tree url" status), a1,
              calls1 ++ calls2 ++ [call])
          else
            match body with
            | none => (.error (.decodeError "could not parse Azure tree response"), a1,
                calls1 ++ calls2 ++ [call])
            | some entries =>
              let filteredRet := entries.filter (fun p => matchExtensions p options.extensions)
              let a2 :=
                if a1.cacheEnabled then
                  { a1 with repoTreeCache :=
                      fun k =>
                        if k = generateCacheKey options.repositoryUrl options.referenceName then
                          some entries
                        else a1.repoTreeCache k }
                else a1
              (.ok filteredRet, a2, calls1 ++ calls2 ++ [call])
  else (.error .refNotFound, a1, calls1)

/-- Embeds `listTree` (azure.go lines 444-550): on a tree-cache hit return
the cached unfiltered list filtered by the requested extensions, with no
remote call; otherwise resolve the reference list (reference cache first,
else a live `listRemote` whose state update and request trace are kept)
and continue with `listTreeAfterRefs`. -/
def listTree (env : AzureEnv) (a : AzureState) (options : fetchOptions) :
    Except GitError (List String) × AzureState × List RemoteCall :=
  let repoKey := generateCacheKey options.repositoryUrl options.referenceName
  match a.repoTreeCache repoKey with
  | some treeCache =>
    (.ok (treeCache.filter (fun p => matchExtensions p options.extensions)), a, [])
  | none =>
    match (match a.repoRefCache options.repositoryUrl with
           | some refCache => (Except.ok refCache, a, ([] : List RemoteCall))
           | none => listRemote env a
               ⟨options.repositoryUrl, "", options.username, options.password⟩) with
    | (.error e, a1, calls1) => (.error e, a1, calls1)
    | (.ok refs, a1, calls1) => listTreeAfterRefs env options a1 calls1 refs

/-- Embeds `removeCache` (azure.go lines 552-558): delete the
reference-list entry for the repository URL and the tree entry for the
(repository URL, reference) cache key. -/
def removeCache (a : AzureState) (opt : cloneOptions) : AzureState :=
  { a with
    repoRefCache := fun k => if k = opt.repositoryUrl then none else a.repoRefCache k,
    repoTreeCache :=
      fun k => if k = generateCacheKey opt.repositoryUrl opt.referenceName then none
               else a.repoTreeCache k }

/-- Embeds `downloadZipFromAzureDevOps` (azure.go lines 99-140): parse the
URL, create the temporary archive file, issue the download request, fail
on any non-200 status with a generic status error, copy the body into the
file, and return the file's name. The trace records the request issued and
the `FsEvent` list records the temporary file's creation; no removal
happens in this function on any path. -/
def downloadZipFromAzureDevOps (env : AzureEnv) (options : cloneOptions) :
    Except GitError String × List FsEvent × List RemoteCall :=
  match parseUrl options.repositoryUrl with
  | .error msg => (.error (.parseError msg), [], [])
  | .ok config =>
    match env.tempFileResult with
    | .error msg => (.error (.ioError msg), [], [])
    | .ok zipName =>
      let call : RemoteCall :=
        ⟨.download, chooseBasicAuth options.username options.password config.username config.password⟩
      match env.downloadResponse with
      | .transportError msg => (.error (.transportError msg), [.create zipName], [call])
      | .response code status _ =>
        if code ≠ 200 then
          (.error (.genericStatus "failed to download zip" status), [.create zipName], [call])
        else
          match env.copyResult with
          | .error msg => (.error (.ioError msg), [.create zipName], [call])
          | .ok _ => (.ok zipName, [.create zipName], [call])

/-- Embeds `download` (azure.go lines 84-97): run the zip download; on its
failure return immediately (the deferred `os.Remove` is registered only
after the error check, so no removal is recorded); on success extract the
archive and remove the temporary file afterwards on both the success and
the failed-extraction path. -/
def download (env : AzureEnv) (options : cloneOptions) :
    Except GitError Unit × List FsEvent × List RemoteCall :=
  match downloadZipFromAzureDevOps env options with
  | (.error e, events, calls) => (.error e, events, calls)
  | (.ok zipName, events, calls) =>
    match env.unzipResult with
    | .error msg => (.error (.ioError msg), events ++ [.remove zipName], calls)
    | .ok _ => (.ok (), events ++ [.remove zipName], calls)

/-- A concrete repository URL used by the concrete instantiations below. -/
def sampleUrl : String := "https://org@dev.azure.com/org/proj/_git/repo"

/-- The locator `parseUrl` produces for `sampleUrl`. -/
def sampleConfig : azureOptions := ⟨"org", "proj", "repo", "org", ""⟩

/-- A concrete environment in which every collaborator call succeeds. -/
def sampleEnv : AzureEnv where
  refsResponse := .response 200 "200 OK" (some [⟨"refs/heads/main", "obj1"⟩, ⟨"HEAD", "objH"⟩])
  rootItemResponse := .response 200 "200 OK" (some [⟨"rootobj", "commit1", "/"⟩])
  treeResponse := .response 200 "200 OK" (some ["a.yml", "b.txt", "c.yml"])
  downloadResponse := .response 200 "200 OK" (some ())
  tempFileResult := .ok "/tmp/azure-git-repo-1.zip"
  copyResult := .ok ()
  unzipResult := .ok ()

/-- A concrete initial state: caching enabled, both cache maps empty. -/
def sampleState : AzureState where
  cacheEnabled := true
  repoRefCache := fun _ => none
  repoTreeCache := fun _ => none

/-- Concrete fetch options for `sampleUrl` at `refs/heads/main`, filtered
to `.yml` files. -/
def sampleFetchOpts : fetchOptions := ⟨sampleUrl, "refs/heads/main", "", "", [".yml"]⟩

/-- Concrete clone options for `sampleUrl` at `refs/heads/main`. -/
def sampleCloneOpts : cloneOptions := ⟨sampleUrl, "refs/heads/main", "", ""⟩

/-- `sampleEnv` with the remote answering 404 on the refs listing. -/
def env404 : AzureEnv :=
  { sampleEnv with refsResponse := .response 404 "404 Not Found" none }

/-- `sampleEnv` with the remote answering 401 on every endpoint. -/
def env401 : AzureEnv :=
  { sampleEnv with
    refsResponse := .response 401 "401 Unauthorized" none
    rootItemResponse := .response 401 "401 Unauthorized" none
    treeResponse := .response 401 "401 Unauthorized" none
    downloadResponse := .response 401 "401 Unauthorized" none }

/-- `sampleEnv` with the remote answering 500 on the refs listing and the
download endpoint. -/
def env500 : AzureEnv :=
  { sampleEnv with
    refsResponse := .response 500 "500 Internal Server Error" none
    downloadResponse := .response 500 "500 Internal Server Error" none }

/-- `sampleEnv` with the remote answering 203 on the root-item and
download endpoints. -/
def env203 : AzureEnv :=
  { sampleEnv with
    rootItemResponse := .response 203 "203 Non-Authoritative Information" none
    downloadResponse := .response 203 "203 Non-Authoritative Information" none }

/-- `sampleEnv` with the remote answering 401 on the tree endpoint only. -/
def envTree401 : AzureEnv :=
  { sampleEnv with treeResponse := .response 401 "401 Unauthorized" none }

/-- `sampleState` with the reference list for `sampleUrl` already cached. -/
def refCachedState : AzureState :=
  { sampleState with
    repoRefCache := fun k => if k = sampleUrl then some ["refs/heads/main"] else none }

example : parseUrl "https://org@dev.azure.com/org/proj/_git/repo" =
    .ok ⟨"org", "proj", "repo", "org", ""⟩ := by decide

example : (listRemote sampleEnv sampleState sampleCloneOpts).1 = .ok ["refs/heads/main"] := by decide

example : (listTree sampleEnv sampleState sampleFetchOpts).1 = .ok ["a.yml", "c.yml"] := by decide

example : (listTree sampleEnv sampleState sampleFetchOpts).2.2 =
    [⟨.refs, some ("org", "")⟩, ⟨.rootItem, some ("org", "")⟩, ⟨.tree, some ("org", "")⟩] := by decide

example : ((listTree sampleEnv sampleState sampleFetchOpts).2.1).repoTreeCache
    (sampleUrl, "refs/heads/main") = some ["a.yml", "b.txt", "c.yml"] := by decide

example : (download sampleEnv sampleCloneOpts).2.1 =
    [.create "/tmp/azure-git-repo-1.zip", .remove "/tmp/azure-git-repo-1.zip"] := by decide

example : (latestCommitID sampleEnv sampleFetchOpts).1 = .ok "commit1" := by decide

lemma goHasPrefix_eq_true {s pre : String} (h : goHasPrefix s pre = true) :
    pre.data <+: s.data :=
  of_decide_eq_true h

lemma tagMarker_not_branchMarker {s : String} (h : goHasPrefix s tagRefMarker = true) :
    goHasPrefix s branchRefMarker = false := by
  cases hb : goHasPrefix s branchRefMarker with
  | false => rfl
  | true =>
    rcases List.prefix_or_prefix_of_prefix (goHasPrefix_eq_true h) (goHasPrefix_eq_true hb)
      with h1 | h1
    · exact absurd h1 (by decide)
    · exact absurd h1 (by decide)

lemma goTrimPrefix_append {s pre : String} (h : goHasPrefix s pre = true) :
    pre ++ goTrimPrefix s pre = s := by
  obtain ⟨t, ht⟩ := goHasPrefix_eq_true h
  apply String.ext
  rw [String.data_append]
  simp only [goTrimPrefix, h, if_true]
  rw [← ht, List.drop_left]

/-- C8: `formatReferenceName` strips the `refs/heads/` marker when present
and `getVersionType` classifies such names as `branch`; it strips the
`refs/tags/` marker when present and `getVersionType` yields `tag`; a name
with neither marker is returned unchanged and classified `commit`; in
particular `formatReferenceName "refs/heads/main" = "main"` and
`formatReferenceName "refs/tags/v1" = "v1"`. -/
theorem formatReference_versionType_spec (s : String) :
    (goHasPrefix s branchRefMarker = true →
      branchRefMarker ++ formatReferenceName s = s ∧ getVersionType s = "branch") ∧
    (goHasPrefix s tagRefMarker = true →
      tagRefMarker ++ formatReferenceName s = s ∧ getVersionType s = "tag") ∧
    (goHasPrefix s branchRefMarker = false → goHasPrefix s tagRefMarker = false →
      formatReferenceName s = s ∧ getVersionType s = "commit") ∧
    (formatReferenceName "refs/heads/main" = "main" ∧
      getVersionType "refs/heads/main" = "branch" ∧
      formatReferenceName "refs/tags/v1" = "v1" ∧
      getVersionType "refs/tags/v1" = "tag") := by
  refine ⟨?_, ?_, ?_, by decide⟩
  · intro h
    constructor
    · rw [show formatReferenceName s = goTrimPrefix s branchRefMarker from by
        simp [formatReferenceName, h]]
      exact goTrimPrefix_append h
    · simp [getVersionType, h]
  · intro h
    have hb := tagMarker_not_branchMarker h
    constructor
    · rw [show formatReferenceName s = goTrimPrefix s tagRefMarker from by
        simp [formatReferenceName, h, hb]]
      exact goTrimPrefix_append h
    · simp [getVersionType, h, hb]
  · intro h1 h2
    constructor
    · simp [formatReferenceName, h1, h2]
    · simp [getVersionType, h1, h2]

theorem formatReference_versionType_spec_witness :
    (branchRefMarker ++ formatReferenceName "refs/heads/main" = "refs/heads/main" ∧
      getVersionType "refs/heads/main" = "branch") ∧
    (tagRefMarker ++ formatReferenceName "refs/tags/v1" = "refs/tags/v1" ∧
      getVersionType "refs/tags/v1" = "tag") ∧
    (formatReferenceName "abc123" = "abc123" ∧ getVersionType "abc123" = "commit") :=
  ⟨(formatReference_versionType_spec "refs/heads/main").1 (by decide),
   (formatReference_versionType_spec "refs/tags/v1").2.1 (by decide),
   (formatReference_versionType_spec "abc123").2.2.1 (by decide) (by decide)⟩

/-- C10: `isAzureUrl` answers true for every string containing
`dev.azure.com` or `.visualstudio.com` anywhere as a substring — host
position is not checked — so a URL whose host is `example.com` but whose
query mentions `dev.azure.com` still selects the Azure fast path. -/
theorem isAzureUrl_substring_dispatch :
    (∀ s : String, azureDevOpsHost.data <:+: s.data → isAzureUrl s = true) ∧
    (∀ s : String, visualStudioHostSuffix.data <:+: s.data → isAzureUrl s = true) ∧
    (isAzureUrl "https://example.com/?q=dev.azure.com" = true ∧
      ∃ g, goUrlParse "https://example.com/?q=dev.azure.com" = some g ∧
        g.host = "example.com" ∧ g.host ≠ azureDevOpsHost ∧
        goHasSuffix g.host visualStudioHostSuffix = false) := by
  refine ⟨?_, ?_, by decide, ⟨⟨"https", "", "", "example.com", "/?q=dev.azure.com"⟩,
    by decide, by decide, by decide, by decide⟩⟩
  · intro s h
    simp [isAzureUrl, goContains, decide_eq_true h]
  · intro s h
    simp [isAzureUrl, goContains, decide_eq_true h]

theorem isAzureUrl_substring_dispatch_witness :
    isAzureUrl "xxdev.azure.comyy" = true ∧
    isAzureUrl "https://org.visualstudio.com/proj/_git/repo" = true :=
  ⟨isAzureUrl_substring_dispatch.1 "xxdev.azure.comyy" (by decide),
   isAzureUrl_substring_dispatch.2.1 "https://org.visualstudio.com/proj/_git/repo" (by decide)⟩

lemma length_eq_five_iff {α : Type} (l : List α) :
    l.length = 5 ↔ ∃ a b c d e, l = [a, b, c, d, e] := by
  constructor
  · intro h
    rcases l with _ | ⟨a, _ | ⟨b, _ | ⟨c, _ | ⟨d, _ | ⟨e, rest⟩⟩⟩⟩⟩ <;> simp_all
  · rintro ⟨a, b, c, d, e, rfl⟩
    rfl

/-- C7: URL parsing is a deterministic function that never partially
populates a locator; for a URL with the https scheme whose parsed host is
`dev.azure.com`, `parseUrl` succeeds exactly when the path splits by `/`
into 5 segments, mapping segment 1 to organisation, segment 2 to project
and segment 4 to repository, with userinfo credentials extracted
separately; in particular `https://org@dev.azure.com/org/proj/_git/repo`
yields organisation `org`, project `proj`, repository `repo`. -/
theorem parseUrl_azure_http_shape (raw : String) (g : GoUrl)
    (hg : goUrlParse raw = some g)
    (hhttps : goHasPrefix raw "https://" = true)
    (hhost : g.host = azureDevOpsHost) :
    ((∃ opt, parseUrl raw = Except.ok opt) ↔ (goSplit g.path '/').length = 5) ∧
    (∀ p0 p1 p2 p3 p4, goSplit g.path '/' = [p0, p1, p2, p3, p4] →
      parseUrl raw = Except.ok ⟨p1, p2, p4, g.username, g.password⟩) ∧
    parseUrl sampleUrl = Except.ok sampleConfig := by
  have hdispatch : parseUrl raw = parseHttpUrl raw := by
    simp [parseUrl, hhttps]
  have hmain : parseHttpUrl raw =
      (match goSplit g.path '/' with
       | [_, p1, p2, _, p4] => Except.ok ⟨p1, p2, p4, g.username, g.password⟩
       | _ => Except.error
           "want url https://Organisation@dev.azure.com/Organisation/Project/_git/Repository") := by
    unfold parseHttpUrl
    rw [hg]
    simp [hhost]
  refine ⟨?_, ?_, by decide⟩
  · constructor
    · rintro ⟨opt, hopt⟩
      rw [hdispatch, hmain] at hopt
      rcases hsplit : goSplit g.path '/' with _ | ⟨a, _ | ⟨b, _ | ⟨c, _ | ⟨d, _ | ⟨e, rest⟩⟩⟩⟩⟩ <;>
        rw [hsplit] at hopt <;> simp_all
      rcases rest with _ | ⟨f, rest'⟩
      · rfl
      · simp_all
    · intro hlen
      obtain ⟨a, b, c, d, e, hsplit⟩ := (length_eq_five_iff _).1 hlen
      exact ⟨⟨b, c, e, g.username, g.password⟩, by rw [hdispatch, hmain, hsplit]⟩
  · intro p0 p1 p2 p3 p4 hsplit
    rw [hdispatch, hmain, hsplit]

lemma listRemote_snd_cacheEnabled (env : AzureEnv) (a : AzureState) (opts : cloneOptions) :
    ((listRemote env a opts).2.1).cacheEnabled = a.cacheEnabled := by
  simp only [listRemote]
  repeat' split
  all_goals rfl

lemma listRemote_snd_treeCache (env : AzureEnv) (a : AzureState) (opts : cloneOptions) :
    ((listRemote env a opts).2.1).repoTreeCache = a.repoTreeCache := by
  simp only [listRemote]
  repeat' split
  all_goals rfl

lemma listRemote_calls (env : AzureEnv) (a : AzureState) (opts : cloneOptions)
    (config : azureOptions) (h : parseUrl opts.repositoryUrl = Except.ok config) :
    (listRemote env a opts).2.2 =
      [⟨.refs, chooseBasicAuth opts.username opts.password config.username config.password⟩] := by
  simp only [listRemote, h]
  repeat' split
  all_goals rfl

lemma getRootItem_calls (env : AzureEnv) (opts : fetchOptions)
    (config : azureOptions) (h : parseUrl opts.repositoryUrl = Except.ok config) :
    (getRootItem env opts).2 =
      [⟨.rootItem, chooseBasicAuth opts.username opts.password config.username config.password⟩] := by
  simp only [getRootItem, h]
  repeat' split
  all_goals rfl

lemma listTree_cacheHit (env : AzureEnv) (a : AzureState) (opts : fetchOptions)
    (L : List String)
    (h : a.repoTreeCache (generateCacheKey opts.repositoryUrl opts.referenceName) = some L) :
    listTree env a opts =
      (Except.ok (L.filter (fun p => matchExtensions p opts.extensions)), a, []) := by
  simp only [listTree]
  rw [h]

lemma listTreeAfterRefs_refNotFound (env : AzureEnv) (opts : fetchOptions) (a1 : AzureState)
    (calls1 : List RemoteCall) (refs : List String) (h : opts.referenceName ∉ refs) :
    listTreeAfterRefs env opts a1 calls1 refs = (.error .refNotFound, a1, calls1) := by
  simp only [listTreeAfterRefs, if_neg h]

lemma listTreeAfterRefs_calls (env : AzureEnv) (opts : fetchOptions) (a1 : AzureState)
    (calls1 : List RemoteCall) (refs : List String) :
    ∃ rest, (listTreeAfterRefs env opts a1 calls1 refs).2.2 = calls1 ++ rest := by
  simp only [listTreeAfterRefs]
  repeat' split
  all_goals first
    | exact ⟨[], (List.append_nil _).symm⟩
    | exact ⟨_, rfl⟩
    | exact ⟨_, (List.append_assoc _ _ _)⟩

lemma listTree_miss (env : AzureEnv) (a : AzureState) (opts : fetchOptions)
    (h1 : a.repoTreeCache (generateCacheKey opts.repositoryUrl opts.referenceName) = none)
    (h2 : a.repoRefCache opts.repositoryUrl = none) :
    listTree env a opts =
      (match listRemote env a ⟨opts.repositoryUrl, "", opts.username, opts.password⟩ with
       | (.error e, a1, calls1) => (.error e, a1, calls1)
       | (.ok refs, a1, calls1) => listTreeAfterRefs env opts a1 calls1 refs) := by
  simp only [listTree]
  rw [h1, h2]

lemma listTreeAfterRefs_ok_inv (env : AzureEnv) (opts : fetchOptions) (a1 : AzureState)
    (calls1 : List RemoteCall) (refs : List String) (r : List String) (a' : AzureState)
    (calls : List RemoteCall) (hce : a1.cacheEnabled = true)
    (hres : listTreeAfterRefs env opts a1 calls1 refs = (Except.ok r, a', calls)) :
    ∃ L, a'.repoTreeCache (generateCacheKey opts.repositoryUrl opts.referenceName) = some L ∧
      r = L.filter (fun p => matchExtensions p opts.extensions) := by
  simp only [listTreeAfterRefs] at hres
  split at hres
  · split at hres
    · simp at hres
    · split at hres
      · simp at hres
      · split at hres
        · simp at hres
        · split at hres
          · simp at hres
          · split at hres
            · simp at hres
            · rename_i entries heqt
              rw [hce] at hres
              simp only [if_true, Prod.mk.injEq, Except.ok.injEq] at hres
              obtain ⟨h1, h2, -⟩ := hres
              refine ⟨entries, ?_, h1.symm⟩
              rw [← h2]
              simp
  · simp at hres

lemma listTree_ok_inv (env : AzureEnv) (a : AzureState) (opts : fetchOptions)
    (r : List String) (a' : AzureState) (calls : List RemoteCall)
    (hc : a.cacheEnabled = true)
    (hres : listTree env a opts = (Except.ok r, a', calls)) :
    ∃ L, a'.repoTreeCache (generateCacheKey opts.repositoryUrl opts.referenceName) = some L ∧
      r = L.filter (fun p => matchExtensions p opts.extensions) := by
  simp only [listTree] at hres
  split at hres
  · rename_i treeCache heq
    simp only [Prod.mk.injEq, Except.ok.injEq] at hres
    obtain ⟨h1, h2, -⟩ := hres
    exact ⟨treeCache, h2 ▸ heq, h1.symm⟩
  · rename_i heq
    split at hres
    · simp at hres
    · rename_i refs a1 calls1 heq2
      have ha1 : a1.cacheEnabled = true := by
        rcases hsp : a.repoRefCache opts.repositoryUrl with _ | rc <;> rw [hsp] at heq2
        · have h3 := congrArg (fun t => (t.2.1).cacheEnabled) heq2
          simp only [listRemote_snd_cacheEnabled] at h3
          rw [← h3]
          exact hc
        · simp only [Prod.mk.injEq] at heq2
          obtain ⟨-, h2, -⟩ := heq2
          rw [← h2]
          exact hc
      exact listTreeAfterRefs_ok_inv env opts a1 calls1 refs r a' calls ha1 hres

/-- C1: with caching enabled, after a successful `listTree` the unfiltered
path list is cached under the (repository URL, reference) key and the
returned list is its filtration; a second `listTree` with identical
arguments issues no remote calls (it is independent of the environment)
and returns the same filtered list, and a second call with a different
extension filter also issues no remote calls and returns the cached
unfiltered list filtered by the new extension set. -/
theorem listTree_cache_idempotent (env : AzureEnv) (a : AzureState) (opts : fetchOptions)
    (r : List String) (hc : a.cacheEnabled = true)
    (hok : (listTree env a opts).1 = Except.ok r) :
    ∃ L, ((listTree env a opts).2.1).repoTreeCache
        (generateCacheKey opts.repositoryUrl opts.referenceName) = some L ∧
      r = L.filter (fun p => matchExtensions p opts.extensions) ∧
      (∀ env', listTree env' ((listTree env a opts).2.1) opts =
        (Except.ok r, (listTree env a opts).2.1, [])) ∧
      (∀ env' exts', listTree env' ((listTree env a opts).2.1) { opts with extensions := exts' } =
        (Except.ok (L.filter (fun p => matchExtensions p exts')),
          (listTree env a opts).2.1, [])) := by
  rcases hE : listTree env a opts with ⟨res1, a', calls⟩
  rw [hE] at hok
  dsimp only at hok
  subst hok
  obtain ⟨L, hL, hr⟩ := listTree_ok_inv env a opts r a' calls hc hE
  refine ⟨L, hL, hr, ?_, ?_⟩
  · intro env'
    rw [listTree_cacheHit env' a' opts L hL, hr]
  · intro env' exts'
    exact listTree_cacheHit env' a' { opts with extensions := exts' } L hL

theorem listTree_cache_idempotent_witness :
    sampleState.cacheEnabled = true ∧
    (listTree sampleEnv sampleState sampleFetchOpts).1 = Except.ok ["a.yml", "c.yml"] ∧
    (∃ L, ((listTree sampleEnv sampleState sampleFetchOpts).2.1).repoTreeCache
        (generateCacheKey sampleUrl "refs/heads/main") = some L ∧
      ["a.yml", "c.yml"] = L.filter (fun p => matchExtensions p [".yml"]) ∧
      (∀ env', listTree env' ((listTree sampleEnv sampleState sampleFetchOpts).2.1)
          sampleFetchOpts =
        (Except.ok ["a.yml", "c.yml"], (listTree sampleEnv sampleState sampleFetchOpts).2.1, [])) ∧
      (∀ env' exts', listTree env' ((listTree sampleEnv sampleState sampleFetchOpts).2.1)
          { sampleFetchOpts with extensions := exts' } =
        (Except.ok (L.filter (fun p => matchExtensions p exts')),
          (listTree sampleEnv sampleState sampleFetchOpts).2.1, []))) :=
  ⟨rfl, by decide,
    listTree_cache_idempotent sampleEnv sampleState sampleFetchOpts ["a.yml", "c.yml"]
      rfl (by decide)⟩

/-- C4: when the tree cache and the reference cache both miss and the live
`listRemote` succeeds with a reference list not containing the requested
reference, `listTree` fails with the reference-not-found error and its
request trace contains only the refs-listing call — no root-item (or tree)
request is made; the failure is returned directly, not retried. -/
theorem listTree_refNotFound_terminal (env : AzureEnv) (a : AzureState) (opts : fetchOptions)
    (config : azureOptions) (refs : List String)
    (h1 : a.repoTreeCache (generateCacheKey opts.repositoryUrl opts.referenceName) = none)
    (h2 : a.repoRefCache opts.repositoryUrl = none)
    (hp : parseUrl opts.repositoryUrl = Except.ok config)
    (hlr : (listRemote env a ⟨opts.repositoryUrl, "", opts.username, opts.password⟩).1 =
      Except.ok refs)
    (habs : opts.referenceName ∉ refs) :
    (listTree env a opts).1 = Except.error GitError.refNotFound ∧
    ∀ c ∈ (listTree env a opts).2.2, c.kind = EndpointKind.refs := by
  have hmiss := listTree_miss env a opts h1 h2
  have hcalls := listRemote_calls env a ⟨opts.repositoryUrl, "", opts.username, opts.password⟩
    config hp
  rcases hE : listRemote env a ⟨opts.repositoryUrl, "", opts.username, opts.password⟩
    with ⟨res1, a1, c1⟩
  rw [hE] at hmiss hlr hcalls
  simp only at hlr hcalls
  subst hlr
  rw [hmiss]
  simp only
  rw [listTreeAfterRefs_refNotFound env opts a1 c1 refs habs]
  refine ⟨rfl, ?_⟩
  intro c hcmem
  simp only at hcmem
  rw [hcalls] at hcmem
  simp only [List.mem_singleton] at hcmem
  subst hcmem
  rfl

theorem listTree_refNotFound_terminal_witness :
    (listTree sampleEnv sampleState
      ⟨sampleUrl, "refs/heads/dev", "", "", [".yml"]⟩).1 = Except.error GitError.refNotFound ∧
    ∀ c ∈ (listTree sampleEnv sampleState
      ⟨sampleUrl, "refs/heads/dev", "", "", [".yml"]⟩).2.2, c.kind = EndpointKind.refs :=
  listTree_refNotFound_terminal sampleEnv sampleState
    ⟨sampleUrl, "refs/heads/dev", "", "", [".yml"]⟩ sampleConfig ["refs/heads/main"]
    (by decide) (by decide) (by decide) (by decide) (by decide)

/-- C5: when the refs-listing response has a non-200 status, `listRemote`
maps 404 to the incorrect-repository-URL error, 401 and 203 to the
authentication-failure error, and any other status to a generic error
carrying the status text; in every such case the returned state — both
cache maps included — is the input state unchanged. -/
theorem listRemote_error_mapping (env : AzureEnv) (a : AzureState) (opts : cloneOptions)
    (config : azureOptions) (code : Nat) (status : String) (body : Option (List azureRef))
    (hp : parseUrl opts.repositoryUrl = Except.ok config)
    (henv : env.refsResponse = .response code status body) :
    (code = 404 → (listRemote env a opts).1 = Except.error GitError.incorrectRepositoryURL) ∧
    (code = 401 ∨ code = 203 →
      (listRemote env a opts).1 = Except.error GitError.authenticationFailure) ∧
    (code ≠ 200 → code ≠ 404 → code ≠ 401 → code ≠ 203 →
      (listRemote env a opts).1 =
        Except.error (GitError.genericStatus "failed to list refs url" status)) ∧
    (code ≠ 200 → (listRemote env a opts).2.1 = a) := by
  simp only [listRemote, hp, henv]
  refine ⟨?_, ?_, ?_, ?_⟩
  · rintro rfl
    simp
  · rintro (rfl | rfl) <;> simp
  · intro h200 h404 h401 h203
    rw [if_pos h200, if_neg h404, if_neg (by simp [h401, h203]), ]
  · intro h200
    rw [if_pos h200]
    split
    · rfl
    · split
      · rfl
      · rfl

theorem listRemote_error_mapping_witness :
    (listRemote env404 sampleState sampleCloneOpts).1 =
      Except.error GitError.incorrectRepositoryURL ∧
    (listRemote env401 sampleState sampleCloneOpts).1 =
      Except.error GitError.authenticationFailure ∧
    (listRemote env500 sampleState sampleCloneOpts).1 =
      Except.error (GitError.genericStatus "failed to list refs url" "500 Internal Server Error") ∧
    (listRemote env404 sampleState sampleCloneOpts).2.1 = sampleState :=
  ⟨(listRemote_error_mapping env404 sampleState sampleCloneOpts sampleConfig 404
      "404 Not Found" none (by decide) rfl).1 rfl,
   (listRemote_error_mapping env401 sampleState sampleCloneOpts sampleConfig 401
      "401 Unauthorized" none (by decide) rfl).2.1 (Or.inl rfl),
   (listRemote_error_mapping env500 sampleState sampleCloneOpts sampleConfig 500
      "500 Internal Server Error" none (by decide) rfl).2.2.1
      (by decide) (by decide) (by decide) (by decide),
   (listRemote_error_mapping env404 sampleState sampleCloneOpts sampleConfig 404
      "404 Not Found" none (by decide) rfl).2.2.2 (by decide)⟩

/-- C6: `removeCache` deletes exactly the reference-list entry keyed by the
repository URL and the tree entry keyed by the (repository URL, reference)
pair, leaving every other entry of both maps unchanged; consequently a
following `listTree` for that repository and reference misses both caches
and issues a fresh refs-listing remote call. -/
theorem removeCache_exact_invalidate (a : AzureState) (opt : cloneOptions) :
    (removeCache a opt).repoRefCache opt.repositoryUrl = none ∧
    (removeCache a opt).repoTreeCache
      (generateCacheKey opt.repositoryUrl opt.referenceName) = none ∧
    (∀ k, k ≠ opt.repositoryUrl → (removeCache a opt).repoRefCache k = a.repoRefCache k) ∧
    (∀ k, k ≠ generateCacheKey opt.repositoryUrl opt.referenceName →
      (removeCache a opt).repoTreeCache k = a.repoTreeCache k) ∧
    (∀ env (fopts : fetchOptions) config,
      fopts.repositoryUrl = opt.repositoryUrl → fopts.referenceName = opt.referenceName →
      parseUrl fopts.repositoryUrl = Except.ok config →
      ∃ c ∈ (listTree env (removeCache a opt) fopts).2.2, c.kind = EndpointKind.refs) := by
  refine ⟨by simp [removeCache], by simp [removeCache], ?_, ?_, ?_⟩
  · intro k hk
    simp [removeCache, hk]
  · intro k hk
    simp [removeCache, hk]
  · intro env fopts config hu hr hp
    have h1 : (removeCache a opt).repoTreeCache
        (generateCacheKey fopts.repositoryUrl fopts.referenceName) = none := by
      simp [removeCache, generateCacheKey, hu, hr]
    have h2 : (removeCache a opt).repoRefCache fopts.repositoryUrl = none := by
      simp [removeCache, hu]
    rw [listTree_miss env _ fopts h1 h2]
    have hcalls := listRemote_calls env (removeCache a opt)
      ⟨fopts.repositoryUrl, "", fopts.username, fopts.password⟩ config hp
    rcases hE : listRemote env (removeCache a opt)
      ⟨fopts.repositoryUrl, "", fopts.username, fopts.password⟩ with ⟨res1, a1, c1⟩
    rw [hE] at hcalls
    simp only at hcalls
    rcases res1 with e | refs
    · simp only
      exact ⟨_, by rw [hcalls]; exact List.mem_singleton_self _, rfl⟩
    · simp only
      obtain ⟨rest, hrest⟩ := listTreeAfterRefs_calls env fopts a1 c1 refs
      refine ⟨⟨.refs, chooseBasicAuth fopts.username fopts.password
        config.username config.password⟩, ?_, rfl⟩
      rw [hrest, hcalls]
      exact List.mem_append_left _ (List.mem_singleton_self _)

theorem removeCache_exact_invalidate_witness :
    (removeCache ((listTree sampleEnv sampleState sampleFetchOpts).2.1)
      sampleCloneOpts).repoRefCache sampleUrl = none ∧
    (removeCache ((listTree sampleEnv sampleState sampleFetchOpts).2.1)
      sampleCloneOpts).repoTreeCache (generateCacheKey sampleUrl "refs/heads/main") = none ∧
    (removeCache ((listTree sampleEnv sampleState sampleFetchOpts).2.1)
      sampleCloneOpts).repoRefCache "https://other@dev.azure.com/o/p/_git/r" =
      ((listTree sampleEnv sampleState sampleFetchOpts).2.1).repoRefCache
        "https://other@dev.azure.com/o/p/_git/r" ∧
    ∃ c ∈ (listTree sampleEnv
        (removeCache ((listTree sampleEnv sampleState sampleFetchOpts).2.1) sampleCloneOpts)
        sampleFetchOpts).2.2, c.kind = EndpointKind.refs :=
  ⟨(removeCache_exact_invalidate _ sampleCloneOpts).1,
   (removeCache_exact_invalidate _ sampleCloneOpts).2.1,
   (removeCache_exact_invalidate _ sampleCloneOpts).2.2.1
     "https://other@dev.azure.com/o/p/_git/r" (by decide),
   (removeCache_exact_invalidate _ sampleCloneOpts).2.2.2.2 sampleEnv sampleFetchOpts
     sampleConfig rfl rfl (by decide)⟩

/-- C2: the temporary archive file is NOT deleted on every exit path of
`download`: when the download response has status 500 after the temporary
file was created, the operation fails and the event list records the
file's creation but no removal (the `defer os.Remove` in `download` is
registered only after the zip download has already succeeded); on the
success path the file is created and then removed. -/
theorem download_tempfile_leak :
    (download env500 sampleCloneOpts).2.1 = [FsEvent.create "/tmp/azure-git-repo-1.zip"] ∧
    FsEvent.remove "/tmp/azure-git-repo-1.zip" ∉ (download env500 sampleCloneOpts).2.1 ∧
    (download env500 sampleCloneOpts).1 =
      Except.error (GitError.genericStatus "failed to download zip" "500 Internal Server Error") ∧
    (download sampleEnv sampleCloneOpts).2.1 =
      [FsEvent.create "/tmp/azure-git-repo-1.zip",
        FsEvent.remove "/tmp/azure-git-repo-1.zip"] := by
  decide

/-- C3 counterexample: a 401 response on the root-item endpoint does NOT
yield the authentication-failure error — `getRootItem` returns the generic
status error for every non-200 status, 401 included. -/
theorem rootItem_401_not_authFailure :
    (getRootItem env401 sampleFetchOpts).1 =
      Except.error (GitError.genericStatus "failed to get repository root item"
        "401 Unauthorized") ∧
    (getRootItem env401 sampleFetchOpts).1 ≠ Except.error GitError.authenticationFailure := by
  decide

lemma downloadZip_non200 (env : AzureEnv) (opts : cloneOptions) (config : azureOptions)
    (code : Nat) (status : String) (body : Option Unit) (zipName : String)
    (hp : parseUrl opts.repositoryUrl = Except.ok config)
    (htemp : env.tempFileResult = Except.ok zipName)
    (hdl : env.downloadResponse = HttpOutcome.response code status body)
    (h200 : code ≠ 200) :
    (downloadZipFromAzureDevOps env opts).1 =
      Except.error (GitError.genericStatus "failed to download zip" status) := by
  simp [downloadZipFromAzureDevOps, hp, htemp, hdl, h200]

/-- C3 amended: only the refs-listing call — whether invoked through
`listRemote` directly or from `listTree` — maps 401 and 203 to the
authentication-failure error; the root-item, download and tree requests
map every non-200 status, 401 and 203 included, to a generic error
carrying the status text. -/
theorem auth_mapping_by_endpoint :
    (∀ env a opts config code status body,
      parseUrl opts.repositoryUrl = Except.ok config →
      env.refsResponse = HttpOutcome.response code status body →
      code = 401 ∨ code = 203 →
      (listRemote env a opts).1 = Except.error GitError.authenticationFailure) ∧
    (∀ env a opts config code status body,
      a.repoTreeCache (generateCacheKey opts.repositoryUrl opts.referenceName) = none →
      a.repoRefCache opts.repositoryUrl = none →
      parseUrl opts.repositoryUrl = Except.ok config →
      env.refsResponse = HttpOutcome.response code status body →
      code = 401 ∨ code = 203 →
      (listTree env a opts).1 = Except.error GitError.authenticationFailure) ∧
    (∀ env opts config code status body,
      parseUrl opts.repositoryUrl = Except.ok config →
      env.rootItemResponse = HttpOutcome.response code status body →
      code ≠ 200 →
      (getRootItem env opts).1 =
        Except.error (GitError.genericStatus "failed to get repository root item" status)) ∧
    (∀ env opts config code status body zipName,
      parseUrl opts.repositoryUrl = Except.ok config →
      env.tempFileResult = Except.ok zipName →
      env.downloadResponse = HttpOutcome.response code status body →
      code ≠ 200 →
      (downloadZipFromAzureDevOps env opts).1 =
        Except.error (GitError.genericStatus "failed to download zip" status)) ∧
    (∀ env a opts config refs code status body item rest st2,
      a.repoTreeCache (generateCacheKey opts.repositoryUrl opts.referenceName) = none →
      a.repoRefCache opts.repositoryUrl = some refs →
      opts.referenceName ∈ refs →
      parseUrl opts.repositoryUrl = Except.ok config →
      env.rootItemResponse = HttpOutcome.response 200 st2 (some (item :: rest)) →
      item.commitId ≠ "" →
      env.treeResponse = HttpOutcome.response code status body →
      code ≠ 200 →
      (listTree env a opts).1 =
        Except.error (GitError.genericStatus "failed to list tree url" status)) := by
  refine ⟨?_, ?_, ?_, ?_, ?_⟩
  · intro env a opts config code status body hp henv hcode
    simp only [listRemote, hp, henv]
    rcases hcode with rfl | rfl <;> simp
  · intro env a opts config code status body h1 h2 hp henv hcode
    have hlr : (listRemote env a ⟨opts.repositoryUrl, "", opts.username, opts.password⟩).1 =
        Except.error GitError.authenticationFailure := by
      simp only [listRemote, hp, henv]
      rcases hcode with rfl | rfl <;> simp
    rw [listTree_miss env a opts h1 h2]
    rcases hE : listRemote env a ⟨opts.repositoryUrl, "", opts.username, opts.password⟩
      with ⟨res1, a1, c1⟩
    rw [hE] at hlr
    dsimp only at hlr
    subst hlr
    rfl
  · intro env opts config code status body hp henv h200
    simp [getRootItem, hp, henv, h200]
  · intro env opts config code status body zipName hp htemp hdl h200
    exact downloadZip_non200 env opts config code status body zipName hp htemp hdl h200
  · intro env a opts config refs code status body item rest st2 h1 h2 hmem hp hroot hcommit
      htree h200
    have hri : getRootItem env opts =
        (Except.ok item, [⟨.rootItem, chooseBasicAuth opts.username opts.password
          config.username config.password⟩]) := by
      simp [getRootItem, hp, hroot, hcommit]
    simp only [listTree]
    rw [h1, h2]
    dsimp only
    simp only [listTreeAfterRefs, if_pos hmem, hri, hp, htree]
    simp [h200]

theorem auth_mapping_by_endpoint_witness :
    (listRemote env401 sampleState sampleCloneOpts).1 =
      Except.error GitError.authenticationFailure ∧
    (listTree env401 sampleState sampleFetchOpts).1 =
      Except.error GitError.authenticationFailure ∧
    (getRootItem env203 sampleFetchOpts).1 =
      Except.error (GitError.genericStatus "failed to get repository root item"
        "203 Non-Authoritative Information") ∧
    (downloadZipFromAzureDevOps env203 sampleCloneOpts).1 =
      Except.error (GitError.genericStatus "failed to download zip"
        "203 Non-Authoritative Information") ∧
    (listTree envTree401 refCachedState sampleFetchOpts).1 =
      Except.error (GitError.genericStatus "failed to list tree url" "401 Unauthorized") :=
  ⟨auth_mapping_by_endpoint.1 env401 sampleState sampleCloneOpts sampleConfig 401
      "401 Unauthorized" none (by decide) rfl (Or.inl rfl),
   auth_mapping_by_endpoint.2.1 env401 sampleState sampleFetchOpts sampleConfig 401
      "401 Unauthorized" none (by decide) (by decide) (by decide) rfl (Or.inl rfl),
   auth_mapping_by_endpoint.2.2.1 env203 sampleFetchOpts sampleConfig 203
      "203 Non-Authoritative Information" none (by decide) rfl (by decide),
   auth_mapping_by_endpoint.2.2.2.1 env203 sampleCloneOpts sampleConfig 203
      "203 Non-Authoritative Information" none "/tmp/azure-git-repo-1.zip"
      (by decide) rfl rfl (by decide),
   auth_mapping_by_endpoint.2.2.2.2 envTree401 refCachedState sampleFetchOpts sampleConfig
      ["refs/heads/main"] 401 "401 Unauthorized" none ⟨"rootobj", "commit1", "/"⟩ [] "200 OK"
      (by decide) (by decide) (by decide) (by decide) rfl (by decide) rfl (by decide)⟩

lemma listTreeAfterRefs_calls_auth (env : AzureEnv) (opts : fetchOptions) (a1 : AzureState)
    (calls1 : List RemoteCall) (refs : List String) (config : azureOptions)
    (hp : parseUrl opts.repositoryUrl = Except.ok config) :
    ∀ c ∈ (listTreeAfterRefs env opts a1 calls1 refs).2.2,
      c ∈ calls1 ∨
        c.auth = chooseBasicAuth opts.username opts.password config.username config.password := by
  have hroot := getRootItem_calls env opts config hp
  intro c hc
  simp only [listTreeAfterRefs] at hc
  split at hc
  · split at hc
    · rename_i e calls2 heq
      have hc2 : calls2 = [⟨.rootItem, chooseBasicAuth opts.username opts.password
          config.username config.password⟩] := by
        rw [heq] at hroot
        exact hroot
      dsimp only at hc
      rw [hc2] at hc
      rcases List.mem_append.1 hc with hm | hm
      · exact Or.inl hm
      · simp only [List.mem_singleton] at hm
        subst hm
        exact Or.inr rfl
    · rename_i rootItem calls2 heq
      have hc2 : calls2 = [⟨.rootItem, chooseBasicAuth opts.username opts.password
          config.username config.password⟩] := by
        rw [heq] at hroot
        exact hroot
      split at hc
      · rename_i msg heqp
        rw [hp] at heqp
        cases heqp
      · rename_i config2 heqp
        rw [hp] at heqp
        injection heqp with heqc
        subst heqc
        split at hc
        all_goals
          first
          | (dsimp only at hc
             rw [hc2] at hc
             rcases List.mem_append.1 hc with hm | hm
             · rcases List.mem_append.1 hm with hm2 | hm2
               · exact Or.inl hm2
               · simp only [List.mem_singleton] at hm2
                 subst hm2
                 exact Or.inr rfl
             · simp only [List.mem_singleton] at hm
               subst hm
               exact Or.inr rfl)
          | skip
        · split at hc
          all_goals
            first
            | (dsimp only at hc
               rw [hc2] at hc
               rcases List.mem_append.1 hc with hm | hm
               · rcases List.mem_append.1 hm with hm2 | hm2
                 · exact Or.inl hm2
                 · simp only [List.mem_singleton] at hm2
                   subst hm2
                   exact Or.inr rfl
               · simp only [List.mem_singleton] at hm
                 subst hm
                 exact Or.inr rfl)
            | skip
          · split at hc
            all_goals
              dsimp only at hc
              rw [hc2] at hc
              rcases List.mem_append.1 hc with hm | hm
              · rcases List.mem_append.1 hm with hm2 | hm2
                · exact Or.inl hm2
                · simp only [List.mem_singleton] at hm2
                  subst hm2
                  exact Or.inr rfl
              · simp only [List.mem_singleton] at hm
                subst hm
                exact Or.inr rfl
  · exact Or.inl hc

lemma downloadZip_calls_auth (env : AzureEnv) (opts : cloneOptions) (config : azureOptions)
    (hp : parseUrl opts.repositoryUrl = Except.ok config) :
    ∀ c ∈ (downloadZipFromAzureDevOps env opts).2.2,
      c.auth = chooseBasicAuth opts.username opts.password config.username config.password := by
  intro c hc
  simp only [downloadZipFromAzureDevOps, hp] at hc
  split at hc
  · simp at hc
  · repeat' split at hc
    all_goals
      simp only [List.mem_singleton] at hc
    all_goals
      subst hc
    all_goals rfl

lemma refsStep_calls_auth (env : AzureEnv) (a : AzureState) (opts : fetchOptions)
    (config : azureOptions) (res1 : Except GitError (List String)) (a1 : AzureState)
    (calls1 : List RemoteCall)
    (hp : parseUrl opts.repositoryUrl = Except.ok config)
    (heq : (match a.repoRefCache opts.repositoryUrl with
            | some refCache => (Except.ok refCache, a, ([] : List RemoteCall))
            | none => listRemote env a
                ⟨opts.repositoryUrl, "", opts.username, opts.password⟩) = (res1, a1, calls1)) :
    ∀ c ∈ calls1,
      c.auth = chooseBasicAuth opts.username opts.password config.username config.password := by
  intro c hcm
  split at heq
  · have hnil : calls1 = [] := (congrArg (fun t => t.2.2) heq).symm
    rw [hnil] at hcm
    simp at hcm
  · have hlr := listRemote_calls env a ⟨opts.repositoryUrl, "", opts.username, opts.password⟩
      config hp
    rw [heq] at hlr
    dsimp only at hlr
    rw [hlr] at hcm
    simp only [List.mem_singleton] at hcm
    subst hcm
    rfl

lemma listTree_calls_auth (env : AzureEnv) (a : AzureState) (opts : fetchOptions)
    (config : azureOptions) (hp : parseUrl opts.repositoryUrl = Except.ok config) :
    ∀ c ∈ (listTree env a opts).2.2,
      c.auth = chooseBasicAuth opts.username opts.password config.username config.password := by
  intro c hc
  simp only [listTree] at hc
  split at hc
  · simp at hc
  · split at hc
    · rename_i e a1 calls1 heq
      exact refsStep_calls_auth env a opts config (.error e) a1 calls1 hp heq c hc
    · rename_i refs a1 calls1 heq
      rcases listTreeAfterRefs_calls_auth env opts a1 calls1 refs config hp c hc with hm | hm
      · exact refsStep_calls_auth env a opts config (.ok refs) a1 calls1 hp heq c hm
      · exact hm

/-- C9: every remote request built by the resolver uses call-scoped
credentials for basic authentication when either call-scoped field is
non-empty, else the locator's URL-embedded credentials when either of
those is non-empty, else sets no authentication header; and every request
recorded in the trace of `listRemote`, `getRootItem`,
`downloadZipFromAzureDevOps` (the request of `download`) and `listTree`
carries exactly this choice. -/
theorem basicAuth_precedence :
    (∀ ou op cu cp : String, (ou ≠ "" ∨ op ≠ "") →
      chooseBasicAuth ou op cu cp = some (ou, op)) ∧
    (∀ cu cp : String, (cu ≠ "" ∨ cp ≠ "") → chooseBasicAuth "" "" cu cp = some (cu, cp)) ∧
    chooseBasicAuth "" "" "" "" = none ∧
    (∀ env a opts config, parseUrl opts.repositoryUrl = Except.ok config →
      ∀ c ∈ (listRemote env a opts).2.2,
        c.auth = chooseBasicAuth opts.username opts.password config.username config.password) ∧
    (∀ env opts config, parseUrl opts.repositoryUrl = Except.ok config →
      ∀ c ∈ (getRootItem env opts).2,
        c.auth = chooseBasicAuth opts.username opts.password config.username config.password) ∧
    (∀ env opts config, parseUrl opts.repositoryUrl = Except.ok config →
      ∀ c ∈ (downloadZipFromAzureDevOps env opts).2.2,
        c.auth = chooseBasicAuth opts.username opts.password config.username config.password) ∧
    (∀ env a opts config, parseUrl opts.repositoryUrl = Except.ok config →
      ∀ c ∈ (listTree env a opts).2.2,
        c.auth = chooseBasicAuth opts.username opts.password config.username config.password) := by
  refine ⟨?_, ?_, rfl, ?_, ?_, ?_, ?_⟩
  · intro ou op cu cp h
    have hb : (ou != "" || op != "") = true := by
      rcases h with h | h <;> simp [h]
    simp only [chooseBasicAuth, hb, if_true]
  · intro cu cp h
    have hb : (cu != "" || cp != "") = true := by
      rcases h with h | h <;> simp [h]
    simp only [chooseBasicAuth, hb, if_true]
    rfl
  · intro env a opts config hp c hc
    rw [listRemote_calls env a opts config hp] at hc
    simp only [List.mem_singleton] at hc
    subst hc
    rfl
  · intro env opts config hp c hc
    rw [getRootItem_calls env opts config hp] at hc
    simp only [List.mem_singleton] at hc
    subst hc
    rfl
  · intro env opts config hp
    exact downloadZip_calls_auth env opts config hp
  · intro env a opts config hp
    exact listTree_calls_auth env a opts config hp

theorem basicAuth_precedence_witness :
    chooseBasicAuth "user" "pw" "org" "" = some ("user", "pw") ∧
    chooseBasicAuth "" "" "org" "" = some ("org", "") ∧
    chooseBasicAuth "" "" "" "" = none ∧
    (RemoteCall.mk EndpointKind.refs (some ("org", ""))).auth =
      chooseBasicAuth sampleCloneOpts.username sampleCloneOpts.password
        sampleConfig.username sampleConfig.password ∧
    (RemoteCall.mk EndpointKind.tree (some ("org", ""))).auth =
      chooseBasicAuth sampleFetchOpts.username sampleFetchOpts.password
        sampleConfig.username sampleConfig.password :=
  ⟨basicAuth_precedence.1 "user" "pw" "org" "" (Or.inl (by decide)),
   basicAuth_precedence.2.1 "org" "" (Or.inl (by decide)),
   basicAuth_precedence.2.2.1,
   basicAuth_precedence.2.2.2.1 sampleEnv sampleState sampleCloneOpts sampleConfig (by decide)
     ⟨.refs, some ("org", "")⟩ (by decide),
   basicAuth_precedence.2.2.2.2.2.2 sampleEnv sampleState sampleFetchOpts sampleConfig
     (by decide) ⟨.tree, some ("org", "")⟩ (by decide)⟩

theorem parseUrl_azure_http_shape_witness :
    ((∃ opt, parseUrl sampleUrl = Except.ok opt) ↔
      (goSplit "/org/proj/_git/repo" '/').length = 5) ∧
    (∀ p0 p1 p2 p3 p4, goSplit "/org/proj/_git/repo" '/' = [p0, p1, p2, p3, p4] →
      parseUrl sampleUrl = Except.ok ⟨p1, p2, p4, "org", ""⟩) ∧
    parseUrl sampleUrl = Except.ok sampleConfig :=
  parseUrl_azure_http_shape sampleUrl ⟨"https", "org", "", "dev.azure.com", "/org/proj/_git/repo"⟩
    (by decide) (by decide) (by decide)

example : parseUrl "https://myorg.visualstudio.com/proj/_git/repo" =
    .ok ⟨"myorg", "proj", "repo", "", ""⟩ := by decide

example : parseUrl "git@ssh.dev.azure.com:v3/org/proj/repo" =
    .ok ⟨"org", "proj", "repo", "", ""⟩ := by decide

example : formatReferenceName "refs/heads/main" = "main" := by decide

example : getVersionType "refs/tags/v1" = "tag" := by decide

example : isAzureUrl "https://example.com/?q=dev.azure.com" = true := by decide
